import Mathlib

/-!
# Verification of the nexus-ai-engine request pipeline

Shallow embedding of the four endpoint pipelines of the `nexus-ai-engine`
FastAPI service (`src/app`): demand forecasting (`routers/demand.py`),
upsell recommendations (`routers/recommendations.py`), chat message
assembly (`routers/chat.py`), invoice-reply post-processing
(`routers/ocr.py`), and the health check (`main.py`).

Modelling conventions:
* Python floats are modelled by `ℚ` (exact rational arithmetic);
  `round(x, 2)` is modelled by decimal round-half-to-even on `ℚ`.
* The external collaborators (Prophet's forecast frame, the random
  perturbation stream) are opaque parameters to the embedded functions.
* Fallible endpoints return `Except HTTPError _`, mirroring FastAPI's
  `HTTPException(status_code, detail)`.
-/

namespace Nexus

/-- Python's `round`-to-integer: round half to even (banker's rounding),
on exact rationals. -/
def roundHalfEven (q : ℚ) : ℤ :=
  let f : ℤ := ⌊q⌋
  let r : ℚ := q - f
  if r < 1/2 then f
  else if 1/2 < r then f + 1
  else if f % 2 = 0 then f else f + 1

/-- Python's `round(x, 2)`: round to two decimal places, half to even. -/
def pyRound2 (q : ℚ) : ℚ := (roundHalfEven (q * 100) : ℚ) / 100

/-! ## Chat endpoint (`src/app/routers/chat.py`, `src/app/schemas/chat.py`) -/

/-- One chat message.  The pydantic schema (`schemas/chat.py:7-9`) declares
`role: str` and `content: str` with no validator or `Literal` constraint:
the allowed roles `'user'`/`'assistant'` appear only in the human-readable
`Field` description, so every pair of strings is accepted by the
validation layer. -/
structure ChatMessage where
  role : String
  content : String
deriving DecidableEq, Repr

/-- Outbound message assembly of the `chat` route (`routers/chat.py:58-75`):
one system message, then (when the history is non-empty) the Python slice
`conversation_history[-5:]` (the last at most five entries, order
preserved), then the user message.  `hist.drop (hist.length - 5)` is the
Lean rendering of the `[-5:]` slice. -/
def buildMessages (systemPrompt : String) (hist : List ChatMessage)
    (userMessage : String) : List ChatMessage :=
  ⟨"system", systemPrompt⟩ ::
    ((if hist.isEmpty then [] else hist.drop (hist.length - 5)) ++
      [⟨"user", userMessage⟩])

/-! ## Health check (`src/app/main.py:35-40`) -/

/-- The `/health` route: returns the pair of the constant status string and
`bool(settings.OPENAI_API_KEY)`, which for a Python string is exactly
non-emptiness. -/
def healthCheck (apiKey : String) : String × Bool :=
  ("healthy", apiKey != "")

/-! ## Recommendations endpoint (`src/app/routers/recommendations.py`) -/

/-- A recommendation row `{product_id, confidence, reason}`; also the row
shape of the static association table. -/
structure UpsellRecommendation where
  product_id : String
  confidence : ℚ
  reason : String
deriving DecidableEq, Repr

/-- The `"default"` association list of `FREQUENTLY_BOUGHT_TOGETHER`
(`routers/recommendations.py:17-24`). -/
def defaultAssoc : List UpsellRecommendation :=
  [⟨"recommended-1", 3/4, "Popular combination"⟩,
   ⟨"recommended-2", 7/10, "Frequently bought together"⟩,
   ⟨"recommended-3", 13/20, "Similar customers bought"⟩]

/-- The static association table; its only key is `"default"`. -/
def FREQUENTLY_BOUGHT_TOGETHER : List (String × List UpsellRecommendation) :=
  [("default", defaultAssoc)]

/-- `FREQUENTLY_BOUGHT_TOGETHER.get(item_id, FREQUENTLY_BOUGHT_TOGETHER["default"])`. -/
def fbtGet (item : String) : List UpsellRecommendation :=
  ((FREQUENTLY_BOUGHT_TOGETHER.lookup item).getD defaultAssoc)

/-- Loop state of `recommend_upsell`: emitted recommendations (in emission
order), the `seen_products` set (as a list used only through membership),
and the index of the next draw from the random stream. -/
abbrev RecState := List UpsellRecommendation × List String × ℕ

/-- One inner-loop step (`routers/recommendations.py:67-79`): skip a
candidate already seen; otherwise emit it with perturbed, 2-decimal-rounded
confidence and mark it seen.  `random.uniform(-0.05, 0.05)` is modelled by
the stream `δ`, consumed once per emission. -/
def emitAssoc (δ : ℕ → ℚ) (st : RecState) (a : UpsellRecommendation) :
    RecState :=
  if a.product_id ∈ st.2.1 then st
  else (st.1 ++ [⟨a.product_id, pyRound2 (a.confidence + δ st.2.2), a.reason⟩],
        a.product_id :: st.2.1, st.2.2 + 1)

/-- The nested loop over cart items and their associated candidates,
starting from `seen_products = set(current_cart_items)`. -/
def processCart (cart : List String) (δ : ℕ → ℚ) : RecState :=
  cart.foldl (fun st item => (fbtGet item).foldl (emitAssoc δ) st)
    ([], cart, 0)

/-- The fixed popular-products reply for an empty cart
(`routers/recommendations.py:41-52`): `range(min(3, 5))` entries with
confidence `0.8 - i*0.1`. -/
def popularRecs : List UpsellRecommendation :=
  (List.range (min 3 5)).map fun i =>
    ⟨"popular-" ++ toString i, 4/5 - (i : ℚ) * (1/10), "Trending product"⟩

/-- The whole `recommend_upsell` route body: empty-cart branch, the
emission loop, stable sort by confidence descending, truncation to five,
and the degenerate fallback when nothing was emitted. -/
def recommendUpsell (cart : List String) (δ : ℕ → ℚ) :
    List UpsellRecommendation :=
  if cart.isEmpty then popularRecs
  else
    let recs := (processCart cart δ).1
    let sorted :=
      (recs.mergeSort (fun a b => b.confidence ≤ a.confidence)).take 5
    if sorted.isEmpty then
      [⟨"complementary-product", 3/5, "Complementary product"⟩]
    else sorted

/-! ## Demand forecasting endpoint (`src/app/routers/demand.py`,
`src/app/schemas/demand.py`) -/

/-- `PredictDemandRequest` (`schemas/demand.py`): tenant and product ids,
integer historical sales, and date strings. -/
structure PredictDemandRequest where
  tenant_id : String
  product_id : String
  historical_sales : List ℤ
  dates : List String
deriving DecidableEq, Repr

/-- `PredictDemandResponse` (`schemas/demand.py`). -/
structure PredictDemandResponse where
  next_month_forecast : ℤ
  confidence : ℚ
  trend : String
deriving DecidableEq, Repr

/-- A FastAPI `HTTPException(status_code, detail)` value. -/
structure HTTPError where
  status_code : ℤ
  detail : String
deriving DecidableEq, Repr

/-- The columns of Prophet's output frame `forecast` that the route reads
(`yhat`, `yhat_upper`, `yhat_lower`).  The model is an opaque external
collaborator, so the columns are arbitrary rational lists. -/
structure ForecastFrame where
  yhat : List ℚ
  yhatUpper : List ℚ
  yhatLower : List ℚ

/-- pandas `Series.tail(n)`: the last at most `n` entries. -/
def seriesTail (n : ℕ) (l : List ℚ) : List ℚ := l.drop (l.length - n)

/-- pandas `Series.mean()`: sum over length (0 on the empty series, a
harmless totalisation since the route only takes means of `tail(30)`
columns). -/
def seriesMean (l : List ℚ) : ℚ := l.sum / (l.length : ℚ)

/-- Python `int(x)` on a float: truncation toward zero. -/
def pyInt (q : ℚ) : ℤ := if 0 ≤ q then ⌊q⌋ else ⌈q⌉

/-- `next_month_forecast = max(0, int(forecast['yhat'].tail(30).sum()))`
(`routers/demand.py:60-63`). -/
def nextMonthForecast (frame : ForecastFrame) : ℤ :=
  max 0 (pyInt (seriesTail 30 frame.yhat).sum)

/-- `recent_avg = df['y'].tail(3).mean()` where `y = historical_sales`
(`routers/demand.py:66`). -/
def recentAvg (req : PredictDemandRequest) : ℚ :=
  let t := req.historical_sales.drop (req.historical_sales.length - 3)
  ((t.sum : ℤ) : ℚ) / (t.length : ℚ)

/-- `uncertainty = yhat_upper.tail(30).mean() - yhat_lower.tail(30).mean()`
(`routers/demand.py:73`). -/
def uncertaintyOf (frame : ForecastFrame) : ℚ :=
  seriesMean (seriesTail 30 frame.yhatUpper) -
    seriesMean (seriesTail 30 frame.yhatLower)

/-- `confidence = max(0.5, min(0.95, 1 - uncertainty / max(1, next_month_forecast)))`
(`routers/demand.py:74`), before the final 2-decimal rounding. -/
def rawConfidence (frame : ForecastFrame) : ℚ :=
  max (1/2) (min (19/20)
    (1 - uncertaintyOf frame / ((max 1 (nextMonthForecast frame) : ℤ) : ℚ)))

/-- The chained conditional expression computing `trend`
(`routers/demand.py:67-69`). -/
def trendOf (req : PredictDemandRequest) (frame : ForecastFrame) : String :=
  if ((nextMonthForecast frame : ℤ) : ℚ) > recentAvg req then "increasing"
  else if ((nextMonthForecast frame : ℤ) : ℚ) < recentAvg req * (9/10) then
    "decreasing"
  else "stable"

/-- The body of the `try:` block of `predict_demand`
(`routers/demand.py:18-80`): the two explicit validations raise
`HTTPException(400, ...)`; otherwise the Prophet frame is aggregated into
the response. -/
def predictDemandInner (req : PredictDemandRequest) (frame : ForecastFrame) :
    Except HTTPError PredictDemandResponse :=
  if req.historical_sales.length < 3 then
    .error ⟨400, "Need at least 3 months of historical data for forecasting"⟩
  else if req.historical_sales.length ≠ req.dates.length then
    .error ⟨400, "Number of sales values must match number of dates"⟩
  else
    .ok ⟨nextMonthForecast frame, pyRound2 (rawConfidence frame),
         trendOf req frame⟩

/-- The whole route: the `except Exception as e:` clause
(`routers/demand.py:87-91`) catches every exception raised in the `try:`
body — including the validation `HTTPException`s, since starlette's
`HTTPException` subclasses `Exception` and `str(e)` is
`f"{status_code}: {detail}"` — and re-raises
`HTTPException(500, f"Forecasting error: {str(e)}")`. -/
def predictDemand (req : PredictDemandRequest) (frame : ForecastFrame) :
    Except HTTPError PredictDemandResponse :=
  match predictDemandInner req frame with
  | .ok r => .ok r
  | .error e =>
    .error ⟨500, "Forecasting error: " ++ toString e.status_code ++ ": " ++
      e.detail⟩

/-- Whether control reaches the Prophet import and `model.fit` call: the
straight-line `try:` body only reaches line 33 (`from prophet import
Prophet`) after both validations pass. -/
def prophetReached (req : PredictDemandRequest) : Bool :=
  !(req.historical_sales.length < 3) &&
    (req.historical_sales.length == req.dates.length)

/-- The spec's three-way trend rule (§4.2), written from the spec's words:
`"increasing"` if forecast > recent_avg, `"decreasing"` if
forecast < 0.9 × recent_avg, else `"stable"`.  Stated over `ℚ` to compare
with the pipeline's computation. -/
def specTrendRule (forecast recent_avg : ℚ) : String :=
  if forecast > recent_avg then "increasing"
  else if forecast < (9/10) * recent_avg then "decreasing"
  else "stable"

/-! ## Invoice OCR reply post-processing (`src/app/routers/ocr.py:250-268`)

The raw textual reply of the vision collaborator is a Python string,
modelled as a `List Char`.  `str.replace(old, "")` deletes every
non-overlapping occurrence of `old`, scanning left to right; `str.strip()`
removes leading and trailing whitespace.  `json.loads` is modelled by a
JSON parser over exact rationals; per the JSON grammar
(`json-text = ws value ws`) surrounding whitespace is ignored, modelled by
stripping the four JSON whitespace characters before parsing.  Not
modelled: `NaN`/`Infinity` literals, surrogate-pair combination in `\u`
escapes, and the collapse of duplicate object keys (none are exercised
below). -/

/-- The backtick character (code 96). -/
def btk : Char := Char.ofNat 96

/-- The three-backtick code-fence delimiter. -/
def bt3 : List Char := [btk, btk, btk]

/-- The seven-character opener of a JSON code fence. -/
def pat7 : List Char := [btk, btk, btk, 'j', 's', 'o', 'n']

/-- Whitespace for Python `str.strip()` (the ASCII whitespace characters;
the reply strings modelled here are ASCII). -/
def isPyWs (c : Char) : Bool :=
  (c == ' ') || (c == '\t') || (c == '\n') || (c == '\r') ||
    (c == '\x0b') || (c == '\x0c')

/-- Whitespace of the JSON grammar: space, tab, newline, carriage return. -/
def isJsonWs (c : Char) : Bool :=
  (c == ' ') || (c == '\t') || (c == '\n') || (c == '\r')

/-- Drop leading and trailing characters satisfying `p`. -/
def stripBy (p : Char → Bool) (l : List Char) : List Char :=
  ((l.dropWhile p).reverse.dropWhile p).reverse

/-- Python `content.strip()`. -/
def pyStrip (l : List Char) : List Char := stripBy isPyWs l

/-- Fuel-driven worker for `str.replace(pat, "")`: scan left to right,
deleting each non-overlapping occurrence of `pat` and resuming after it.
The fuel only needs to dominate the list length. -/
def deleteAllAux (pat : List Char) : ℕ → List Char → List Char
  | _, [] => []
  | 0, l => l
  | fuel+1, c :: t =>
    if pat <+: (c :: t) ∧ pat ≠ [] then
      deleteAllAux pat fuel (t.drop (pat.length - 1))
    else c :: deleteAllAux pat fuel t

/-- Python `l.replace(pat, "")` for a non-empty pattern. -/
def deleteAll (pat l : List Char) : List Char := deleteAllAux pat l.length l

/-- The code-fence stripping of `parse_invoice` (`routers/ocr.py:253-256`):
if the reply starts with ```` ```json ```` delete every occurrence of
```` ```json ```` and of ```` ``` ```` and strip; else if it starts with
```` ``` ```` delete every occurrence of ```` ``` ```` and strip; else
leave the reply unchanged. -/
def stripFences (content : List Char) : List Char :=
  if pat7 <+: content then pyStrip (deleteAll bt3 (deleteAll pat7 content))
  else if bt3 <+: content then pyStrip (deleteAll bt3 content)
  else content

/-- Parsed JSON values (`json.loads` output).  Numbers are exact
rationals; object members are kept in textual order. -/
inductive Json where
  | null
  | bool (b : Bool)
  | num (q : ℚ)
  | str (s : List Char)
  | arr (elems : List Json)
  | obj (members : List (List Char × Json))
deriving Repr

/-- Skip JSON whitespace. -/
def skipJsonWs (l : List Char) : List Char := l.dropWhile isJsonWs

/-- Hexadecimal digit value. -/
def hexVal (c : Char) : Option ℕ :=
  if '0' ≤ c ∧ c ≤ '9' then some (c.toNat - 48)
  else if 'a' ≤ c ∧ c ≤ 'f' then some (c.toNat - 87)
  else if 'A' ≤ c ∧ c ≤ 'F' then some (c.toNat - 55)
  else none

/-- Single-character JSON string escapes. -/
def escChar (e : Char) : Option Char :=
  if e = '"' then some '"'
  else if e = '\\' then some '\\'
  else if e = '/' then some '/'
  else if e = 'b' then some '\x08'
  else if e = 'f' then some '\x0c'
  else if e = 'n' then some '\n'
  else if e = 'r' then some '\r'
  else if e = 't' then some '\t'
  else none

/-- Body of a JSON string after the opening quote: returns the decoded
characters and the rest after the closing quote.  Unescaped control
characters are rejected (`json.loads` default strict mode). -/
def parseStringBody : List Char → Option (List Char × List Char)
  | [] => none
  | '"' :: t => some ([], t)
  | '\\' :: 'u' :: h1 :: h2 :: h3 :: h4 :: t =>
    match hexVal h1, hexVal h2, hexVal h3, hexVal h4 with
    | some a, some b, some c, some d =>
      (parseStringBody t).map fun sr =>
        (Char.ofNat (((a * 16 + b) * 16 + c) * 16 + d) :: sr.1, sr.2)
    | _, _, _, _ => none
  | '\\' :: e :: t =>
    match escChar e with
    | some ch => (parseStringBody t).map fun sr => (ch :: sr.1, sr.2)
    | none => none
  | c :: t =>
    if c.toNat < 32 then none
    else (parseStringBody t).map fun sr => (c :: sr.1, sr.2)

/-- Numeric value of a digit string. -/
def digitsToNat (ds : List Char) : ℕ :=
  ds.foldl (fun n c => n * 10 + (c.toNat - 48)) 0

/-- JSON number per the grammar regex
`-?(0|[1-9][0-9]*)(\.[0-9]+)?([eE][+-]?[0-9]+)?`; components that do not
match are left unconsumed, as with the scanner's regex. -/
def parseNumber (l : List Char) : Option (ℚ × List Char) :=
  let signRest : Bool × List Char :=
    match l with
    | '-' :: t => (true, t)
    | _ => (false, l)
  let ipart : List Char × List Char :=
    match signRest.2 with
    | '0' :: t => (['0'], t)
    | t => (t.takeWhile Char.isDigit, t.dropWhile Char.isDigit)
  if ipart.1 = [] then none
  else
    let fpart : List Char × List Char :=
      match ipart.2 with
      | '.' :: t =>
        if t.takeWhile Char.isDigit = [] then ([], ipart.2)
        else (t.takeWhile Char.isDigit, t.dropWhile Char.isDigit)
      | _ => ([], ipart.2)
    let epart : ℤ × List Char :=
      match fpart.2 with
      | 'e' :: '+' :: t =>
        if t.takeWhile Char.isDigit = [] then (0, fpart.2)
        else ((digitsToNat (t.takeWhile Char.isDigit) : ℤ),
              t.dropWhile Char.isDigit)
      | 'E' :: '+' :: t =>
        if t.takeWhile Char.isDigit = [] then (0, fpart.2)
        else ((digitsToNat (t.takeWhile Char.isDigit) : ℤ),
              t.dropWhile Char.isDigit)
      | 'e' :: '-' :: t =>
        if t.takeWhile Char.isDigit = [] then (0, fpart.2)
        else (-(digitsToNat (t.takeWhile Char.isDigit) : ℤ),
              t.dropWhile Char.isDigit)
      | 'E' :: '-' :: t =>
        if t.takeWhile Char.isDigit = [] then (0, fpart.2)
        else (-(digitsToNat (t.takeWhile Char.isDigit) : ℤ),
              t.dropWhile Char.isDigit)
      | 'e' :: t =>
        if t.takeWhile Char.isDigit = [] then (0, fpart.2)
        else ((digitsToNat (t.takeWhile Char.isDigit) : ℤ),
              t.dropWhile Char.isDigit)
      | 'E' :: t =>
        if t.takeWhile Char.isDigit = [] then (0, fpart.2)
        else ((digitsToNat (t.takeWhile Char.isDigit) : ℤ),
              t.dropWhile Char.isDigit)
      | _ => (0, fpart.2)
    let mag : ℚ :=
      ((digitsToNat ipart.1 : ℚ) +
        (digitsToNat fpart.1 : ℚ) / ((10 : ℚ) ^ fpart.1.length)) *
        (10 : ℚ) ^ epart.1
    some (if signRest.1 then -mag else mag, epart.2)

mutual

/-- Parse one JSON value (leading whitespace already skipped). -/
def parseVal : ℕ → List Char → Option (Json × List Char)
  | 0, _ => none
  | fuel+1, l =>
    match l with
    | 'n' :: 'u' :: 'l' :: 'l' :: t => some (.null, t)
    | 't' :: 'r' :: 'u' :: 'e' :: t => some (.bool true, t)
    | 'f' :: 'a' :: 'l' :: 's' :: 'e' :: t => some (.bool false, t)
    | '"' :: t => (parseStringBody t).map fun sr => (.str sr.1, sr.2)
    | '[' :: t =>
      match skipJsonWs t with
      | ']' :: t' => some (.arr [], t')
      | t' => parseElems fuel t' []
    | '{' :: t =>
      match skipJsonWs t with
      | '}' :: t' => some (.obj [], t')
      | t' => parseMembers fuel t' []
    | _ => (parseNumber l).map fun qr => (.num qr.1, qr.2)

/-- Parse the elements of a non-empty JSON array. -/
def parseElems : ℕ → List Char → List Json → Option (Json × List Char)
  | 0, _, _ => none
  | fuel+1, l, acc =>
    match parseVal fuel l with
    | some (v, r) =>
      match skipJsonWs r with
      | ',' :: r' => parseElems fuel (skipJsonWs r') (acc ++ [v])
      | ']' :: r' => some (.arr (acc ++ [v]), r')
      | _ => none
    | none => none

/-- Parse the members of a non-empty JSON object. -/
def parseMembers : ℕ → List Char → List (List Char × Json) →
    Option (Json × List Char)
  | 0, _, _ => none
  | fuel+1, l, acc =>
    match l with
    | '"' :: t =>
      match parseStringBody t with
      | some kr =>
        match skipJsonWs kr.2 with
        | ':' :: r' =>
          match parseVal fuel (skipJsonWs r') with
          | some (v, r2) =>
            match skipJsonWs r2 with
            | ',' :: r3 => parseMembers fuel (skipJsonWs r3) (acc ++ [(kr.1, v)])
            | '}' :: r3 => some (.obj (acc ++ [(kr.1, v)]), r3)
            | _ => none
          | none => none
        | _ => none
      | none => none
    | _ => none

end

/-- `json.loads`: ignore surrounding JSON whitespace, parse one value, and
require the document to end there. -/
def pyJsonLoads (l : List Char) : Option Json :=
  match parseVal (2 * (stripBy isJsonWs l).length + 2) (stripBy isJsonWs l) with
  | some (v, rest) => if skipJsonWs rest = [] then some v else none
  | none => none

/-- The invoice-extraction post-processing applied to a raw reply: strip
optional code fences, then parse as JSON. -/
def postProcessReply (content : List Char) : Option Json :=
  pyJsonLoads (stripFences content)

/-- A reply wrapped in a leading ```` ```json ```` fence and a trailing
```` ``` ```` fence, each on its own line. -/
def wrapFenceJson (r : List Char) : List Char :=
  pat7 ++ '\n' :: (r ++ '\n' :: bt3)

/-- A reply wrapped in a plain leading ```` ``` ```` fence and a trailing
```` ``` ```` fence, each on its own line. -/
def wrapFencePlain (r : List Char) : List Char :=
  bt3 ++ '\n' :: (r ++ '\n' :: bt3)

/-- Loop invariant of the recommendation emission loop: the seen set
contains the whole cart and every emitted product id; emitted ids are
pairwise distinct, disjoint from the cart, and carry confidences in
`[3/5, 4/5]`. -/
def RecInv (cart : List String) (st : RecState) : Prop :=
  (∀ c ∈ cart, c ∈ st.2.1) ∧
    (∀ r ∈ st.1, r.product_id ∈ st.2.1) ∧
    (st.1.map (fun r => r.product_id)).Nodup ∧
    (∀ r ∈ st.1, r.product_id ∉ cart ∧
      3/5 ≤ r.confidence ∧ r.confidence ≤ 4/5)

/-! ## Helper lemmas -/

/-- Round-half-to-even stays between any integer bounds enclosing its
argument. -/
theorem roundHalfEven_bounds (a b : ℤ) (x : ℚ) (ha : (a : ℚ) ≤ x)
    (hb : x ≤ (b : ℚ)) : a ≤ roundHalfEven x ∧ roundHalfEven x ≤ b := by
  have hfa : a ≤ ⌊x⌋ := Int.le_floor.mpr ha
  have hfb : ⌊x⌋ ≤ b := by
    have := Int.floor_le_floor hb
    simpa using this
  have hfl : (⌊x⌋ : ℚ) ≤ x := Int.floor_le x
  unfold roundHalfEven
  dsimp only
  split_ifs with h1 h2 h3
  · exact ⟨hfa, hfb⟩
  · refine ⟨by omega, ?_⟩
    rcases lt_or_eq_of_le hfb with h | h
    · omega
    · exfalso
      rw [h] at hfl
      have : x - (b : ℚ) < 1/2 := by linarith
      rw [h] at h2
      linarith
  · exact ⟨hfa, hfb⟩
  · refine ⟨by omega, ?_⟩
    rcases lt_or_eq_of_le hfb with h | h
    · omega
    · exfalso
      have hr : x - (⌊x⌋ : ℚ) = 1/2 := by
        rcases lt_trichotomy (x - (⌊x⌋ : ℚ)) (1/2) with hh | hh | hh
        · exact absurd hh h1
        · exact hh
        · exact absurd hh h2
      rw [h] at hr hfl
      linarith

/-- Two-decimal rounding stays between two-decimal bounds enclosing its
argument. -/
theorem pyRound2_bounds (a b : ℤ) (x : ℚ) (ha : (a : ℚ)/100 ≤ x)
    (hb : x ≤ (b : ℚ)/100) :
    (a : ℚ)/100 ≤ pyRound2 x ∧ pyRound2 x ≤ (b : ℚ)/100 := by
  have h100 : (a : ℚ) ≤ x * 100 ∧ x * 100 ≤ (b : ℚ) := by
    constructor <;> nlinarith
  obtain ⟨hlo, hhi⟩ := roundHalfEven_bounds a b (x * 100) h100.1 h100.2
  unfold pyRound2
  constructor
  · have : (a : ℚ) ≤ (roundHalfEven (x * 100) : ℚ) := by exact_mod_cast hlo
    linarith
  · have : ((roundHalfEven (x * 100) : ℚ)) ≤ (b : ℚ) := by exact_mod_cast hhi
    linarith

/-- The clamped (pre-rounding) confidence is always in `[0.5, 0.95]`. -/
theorem rawConfidence_mem (frame : ForecastFrame) :
    1/2 ≤ rawConfidence frame ∧ rawConfidence frame ≤ 19/20 := by
  unfold rawConfidence
  constructor
  · exact le_max_left _ _
  · exact max_le (by norm_num) (min_le_left _ _)

/-- The popular-products list, evaluated. -/
theorem popularRecs_eq :
    popularRecs =
      [⟨"popular-0", 4/5, "Trending product"⟩,
       ⟨"popular-1", 7/10, "Trending product"⟩,
       ⟨"popular-2", 3/5, "Trending product"⟩] := by
  simp [popularRecs, List.range_succ]
  norm_num
  exact ⟨rfl, rfl, rfl⟩

/-- Every lookup in the one-entry association table yields the default
list. -/
theorem fbtGet_eq (item : String) : fbtGet item = defaultAssoc := by
  unfold fbtGet FREQUENTLY_BOUGHT_TOGETHER
  simp only [List.lookup]
  cases h : (item == "default") <;> simp [List.lookup]

/-- One emission step preserves the loop invariant, for any candidate
whose base confidence lies in `[13/20, 3/4]` and any perturbation stream
bounded by `1/20`. -/
theorem emitAssoc_preserves (δ : ℕ → ℚ)
    (hδ : ∀ k, -(1/20) ≤ δ k ∧ δ k ≤ 1/20) (cart : List String)
    (a : UpsellRecommendation)
    (ha : 13/20 ≤ a.confidence ∧ a.confidence ≤ 3/4) (st : RecState)
    (h : RecInv cart st) : RecInv cart (emitAssoc δ st a) := by
  obtain ⟨h1, h2, h3, h4⟩ := h
  unfold emitAssoc
  by_cases hm : a.product_id ∈ st.2.1
  · rw [if_pos hm]
    exact ⟨h1, h2, h3, h4⟩
  · rw [if_neg hm]
    obtain ⟨hdlo, hdhi⟩ := hδ st.2.2
    obtain ⟨hrlo, hrhi⟩ := pyRound2_bounds 60 80 (a.confidence + δ st.2.2)
      (by push_cast; linarith) (by push_cast; linarith)
    push_cast at hrlo hrhi
    refine ⟨?_, ?_, ?_, ?_⟩
    · exact fun c hc => List.mem_cons_of_mem _ (h1 c hc)
    · intro r hr
      rcases List.mem_append.mp hr with h' | h'
      · exact List.mem_cons_of_mem _ (h2 r h')
      · rw [List.mem_singleton.mp h']
        exact List.mem_cons_self _ _
    · rw [List.map_append]
      simp only [List.map_cons, List.map_nil]
      rw [List.nodup_append]
      refine ⟨h3, List.nodup_singleton _, ?_⟩
      intro p hp hq
      rcases List.mem_map.mp hp with ⟨r, hr, hpr⟩
      rcases List.mem_singleton.mp hq
      exact hm (hpr ▸ h2 r hr)
    · intro r hr
      rcases List.mem_append.mp hr with h' | h'
      · exact h4 r h'
      · rw [List.mem_singleton.mp h']
        refine ⟨fun hin => hm (h1 _ hin), by linarith, by linarith⟩

/-- The inner loop over the (always default) association list preserves
the invariant. -/
theorem foldInner_preserves (δ : ℕ → ℚ)
    (hδ : ∀ k, -(1/20) ≤ δ k ∧ δ k ≤ 1/20) (cart : List String)
    (item : String) (st : RecState) (h : RecInv cart st) :
    RecInv cart ((fbtGet item).foldl (emitAssoc δ) st) := by
  rw [fbtGet_eq]
  simp only [defaultAssoc, List.foldl_cons, List.foldl_nil]
  exact emitAssoc_preserves δ hδ cart _ (by norm_num) _
    (emitAssoc_preserves δ hδ cart _ (by norm_num) _
      (emitAssoc_preserves δ hδ cart _ (by norm_num) _ h))

/-- The outer loop over the cart items preserves the invariant. -/
theorem processItems_preserves (δ : ℕ → ℚ)
    (hδ : ∀ k, -(1/20) ≤ δ k ∧ δ k ≤ 1/20) (cart : List String)
    (items : List String) (st : RecState) (h : RecInv cart st) :
    RecInv cart
      (items.foldl (fun st item => (fbtGet item).foldl (emitAssoc δ) st) st) := by
  induction items generalizing st with
  | nil => exact h
  | cons i is ih => exact ih _ (foldInner_preserves δ hδ cart i st h)

/-- The full emission loop establishes the invariant. -/
theorem processCart_inv (cart : List String) (δ : ℕ → ℚ)
    (hδ : ∀ k, -(1/20) ≤ δ k ∧ δ k ≤ 1/20) :
    RecInv cart (processCart cart δ) := by
  unfold processCart
  exact processItems_preserves δ hδ cart cart ([], cart, 0)
    ⟨fun c hc => hc, fun r hr => absurd hr (List.not_mem_nil r), by simp,
      fun r hr => absurd hr (List.not_mem_nil r)⟩

/-- All structural properties of the `recommend_upsell` output, in every
branch: at most five rows, pairwise-distinct product ids, confidences in
`[0, 1]`, sorted by confidence descending, and — whenever the fallback
product id is not itself a cart item — disjointness from the cart. -/
theorem recommendUpsell_props (cart : List String) (δ : ℕ → ℚ)
    (hδ : ∀ k, -(1/20) ≤ δ k ∧ δ k ≤ 1/20) :
    (recommendUpsell cart δ).length ≤ 5 ∧
      ((recommendUpsell cart δ).map (fun r => r.product_id)).Nodup ∧
      (∀ r ∈ recommendUpsell cart δ, 0 ≤ r.confidence ∧ r.confidence ≤ 1) ∧
      (recommendUpsell cart δ).Pairwise
        (fun x y => y.confidence ≤ x.confidence) ∧
      ("complementary-product" ∉ cart →
        ∀ r ∈ recommendUpsell cart δ, r.product_id ∉ cart) := by
  unfold recommendUpsell
  by_cases hc : cart.isEmpty
  · rw [if_pos hc, popularRecs_eq]
    rw [List.isEmpty_iff.mp hc]
    refine ⟨by norm_num, by decide, ?_, ?_, fun _ r _ => List.not_mem_nil _⟩
    · intro r hr
      simp only [List.mem_cons, List.not_mem_nil, or_false] at hr
      rcases hr with rfl | rfl | rfl <;> norm_num
    · refine List.Pairwise.cons ?_ (List.Pairwise.cons ?_
        (List.Pairwise.cons ?_ List.Pairwise.nil))
      · intro r hr
        simp only [List.mem_cons, List.not_mem_nil, or_false] at hr
        rcases hr with rfl | rfl <;> norm_num
      · intro r hr
        simp only [List.mem_cons, List.not_mem_nil, or_false] at hr
        rcases hr with rfl
        norm_num
      · intro r hr
        exact absurd hr (List.not_mem_nil _)
  · rw [if_neg hc]
    obtain ⟨hseed, hseen, hnodup, hprops⟩ := processCart_inv cart δ hδ
    have hperm : List.Perm
        ((processCart cart δ).1.mergeSort
          (fun a b => b.confidence ≤ a.confidence))
        (processCart cart δ).1 :=
      List.mergeSort_perm _ _
    have hsorted : (((processCart cart δ).1.mergeSort
        (fun a b => b.confidence ≤ a.confidence))).Pairwise
        (fun a b => decide (b.confidence ≤ a.confidence) = true) := by
      apply List.sorted_mergeSort
      · intro a b c hab hbc
        simp only [decide_eq_true_eq] at *
        exact le_trans hbc hab
      · intro a b
        simp only [Bool.or_eq_true, decide_eq_true_eq]
        exact le_total _ _
    by_cases he : (((processCart cart δ).1.mergeSort
        (fun a b => b.confidence ≤ a.confidence)).take 5).isEmpty
    · rw [if_pos he]
      refine ⟨by norm_num, by decide, ?_, ?_, ?_⟩
      · intro r hr
        rcases List.mem_singleton.mp hr with rfl
        norm_num
      · simp
      · intro hcompl r hr
        rcases List.mem_singleton.mp hr with rfl
        exact hcompl
    · rw [if_neg he]
      have hsub : ∀ r ∈ ((processCart cart δ).1.mergeSort
          (fun a b => b.confidence ≤ a.confidence)).take 5,
          r ∈ (processCart cart δ).1 :=
        fun r hr => hperm.subset (List.take_subset _ _ hr)
      refine ⟨?_, ?_, ?_, ?_, ?_⟩
      · rw [List.length_take]
        exact min_le_left _ _
      · rw [List.map_take]
        have hn : (((processCart cart δ).1.mergeSort
            (fun a b => b.confidence ≤ a.confidence)).map
            (fun r => r.product_id)).Nodup :=
          ((hperm.map (fun r => r.product_id)).nodup_iff).mpr hnodup
        exact List.Nodup.sublist (List.take_sublist _ _) hn
      · intro r hr
        obtain ⟨_, hlo, hhi⟩ := hprops r (hsub r hr)
        exact ⟨by linarith, by linarith⟩
      · exact List.Pairwise.sublist (List.take_sublist _ _)
          (hsorted.imp (fun h => of_decide_eq_true h))
      · intro hcompl r hr
        exact (hprops r (hsub r hr)).1

/-! ## Claim theorems -/

/-- C1: for every request failing the length validations the route makes
no external call — but, contrary to the claim, the validation
`HTTPException(400, ...)` is swallowed by the route's `except Exception`
clause and re-raised as HTTP 500 with detail
`"Forecasting error: 400: ..."`, so the client observes a 500, not a
400. -/
theorem predict_demand_validation_no_call_but_500
    (req : PredictDemandRequest) (frame : ForecastFrame)
    (h : req.historical_sales.length < 3 ∨
      req.historical_sales.length ≠ req.dates.length) :
    (predictDemand req frame =
        .error ⟨500, "Forecasting error: 400: Need at least 3 months of historical data for forecasting"⟩ ∨
      predictDemand req frame =
        .error ⟨500, "Forecasting error: 400: Number of sales values must match number of dates"⟩) ∧
      prophetReached req = false := by
  constructor
  · by_cases h1 : req.historical_sales.length < 3
    · left
      simp only [predictDemand, predictDemandInner, if_pos h1]
      rfl
    · have h2 : req.historical_sales.length ≠ req.dates.length :=
        h.resolve_left h1
      right
      simp only [predictDemand, predictDemandInner, if_neg h1, if_pos h2]
      rfl
  · unfold prophetReached
    rcases h with h | h
    · simp [h]
    · simp [h]

/-- Witness for C1 at a concrete two-point request. -/
theorem predict_demand_validation_no_call_but_500_witness :
    (predictDemand ⟨"t1", "p1", [10, 20], ["2025-01-01", "2025-02-01"]⟩
          ⟨[], [], []⟩ =
        .error ⟨500, "Forecasting error: 400: Need at least 3 months of historical data for forecasting"⟩ ∨
      predictDemand ⟨"t1", "p1", [10, 20], ["2025-01-01", "2025-02-01"]⟩
          ⟨[], [], []⟩ =
        .error ⟨500, "Forecasting error: 400: Number of sales values must match number of dates"⟩) ∧
      prophetReached ⟨"t1", "p1", [10, 20], ["2025-01-01", "2025-02-01"]⟩ =
        false :=
  predict_demand_validation_no_call_but_500 _ _ (by left; decide)

/-- C2: on every validated request the trend of the response is exactly
the spec's three-way rule applied to the computed forecast and the mean of
the last three observed values, and the rule gives the three example
classifications of the spec. -/
theorem predict_demand_trend_rule
    (req : PredictDemandRequest) (frame : ForecastFrame)
    (h3 : 3 ≤ req.historical_sales.length)
    (hlen : req.historical_sales.length = req.dates.length) :
    (predictDemand req frame).map (fun r => r.trend) =
        .ok (specTrendRule ((nextMonthForecast frame : ℤ) : ℚ) (recentAvg req)) ∧
      specTrendRule 220 165 = "increasing" ∧
      specTrendRule 140 165 = "decreasing" ∧
      specTrendRule 160 165 = "stable" := by
  refine ⟨?_, by norm_num [specTrendRule], by norm_num [specTrendRule],
    by norm_num [specTrendRule]⟩
  have h1 : ¬ req.historical_sales.length < 3 := by omega
  have h2 : ¬ req.historical_sales.length ≠ req.dates.length := fun hn => hn hlen
  simp only [predictDemand, predictDemandInner, if_neg h1, if_neg h2]
  show Except.ok (trendOf req frame) = _
  rw [trendOf, specTrendRule, mul_comm]

/-- Witness for C2 at a concrete validated request. -/
theorem predict_demand_trend_rule_witness :
    (predictDemand ⟨"t1", "p1", [150, 160, 155], ["a", "b", "c"]⟩
          ⟨[100, 120, 110], [130, 140, 150], [90, 100, 95]⟩).map
        (fun r => r.trend) =
      .ok (specTrendRule
        ((nextMonthForecast ⟨[100, 120, 110], [130, 140, 150], [90, 100, 95]⟩ : ℤ) : ℚ)
        (recentAvg ⟨"t1", "p1", [150, 160, 155], ["a", "b", "c"]⟩)) ∧
      specTrendRule 220 165 = "increasing" ∧
      specTrendRule 140 165 = "decreasing" ∧
      specTrendRule 160 165 = "stable" :=
  predict_demand_trend_rule _ _ (by decide) (by decide)

/-- C3: on every validated request, whatever the model's uncertainty bands
and forecast sum, the returned confidence is the claim's clamped,
2-decimal-rounded formula, and lies in `[0.5, 0.95]`. -/
theorem predict_demand_confidence_clamped
    (req : PredictDemandRequest) (frame : ForecastFrame)
    (h3 : 3 ≤ req.historical_sales.length)
    (hlen : req.historical_sales.length = req.dates.length) :
    (predictDemand req frame).map (fun r => r.confidence) =
        .ok (pyRound2 (max (1/2) (min (19/20)
          (1 - uncertaintyOf frame /
            ((max 1 (nextMonthForecast frame) : ℤ) : ℚ))))) ∧
      1/2 ≤ pyRound2 (rawConfidence frame) ∧
      pyRound2 (rawConfidence frame) ≤ 19/20 := by
  obtain ⟨hlo, hhi⟩ := rawConfidence_mem frame
  obtain ⟨blo, bhi⟩ := pyRound2_bounds 50 95 (rawConfidence frame)
    (by push_cast; linarith) (by push_cast; linarith)
  refine ⟨?_, by push_cast at blo ⊢; linarith, by push_cast at bhi ⊢; linarith⟩
  have h1 : ¬ req.historical_sales.length < 3 := by omega
  have h2 : ¬ req.historical_sales.length ≠ req.dates.length := fun hn => hn hlen
  simp only [predictDemand, predictDemandInner, if_neg h1, if_neg h2]
  rfl

/-- Witness for C3 at a concrete validated request. -/
theorem predict_demand_confidence_clamped_witness :
    (predictDemand ⟨"t1", "p1", [150, 160, 155], ["a", "b", "c"]⟩
          ⟨[100, 120, 110], [130, 140, 150], [90, 100, 95]⟩).map
        (fun r => r.confidence) =
        .ok (pyRound2 (max (1/2) (min (19/20)
          (1 - uncertaintyOf ⟨[100, 120, 110], [130, 140, 150], [90, 100, 95]⟩ /
            ((max 1 (nextMonthForecast ⟨[100, 120, 110], [130, 140, 150], [90, 100, 95]⟩) : ℤ) : ℚ))))) ∧
      1/2 ≤ pyRound2 (rawConfidence ⟨[100, 120, 110], [130, 140, 150], [90, 100, 95]⟩) ∧
      pyRound2 (rawConfidence ⟨[100, 120, 110], [130, 140, 150], [90, 100, 95]⟩) ≤ 19/20 :=
  predict_demand_confidence_clamped _ _ (by decide) (by decide)

/-- C4 (amended): every `recommend_upsell` response has length at most 5,
pairwise-distinct product ids, confidences in `[0, 1]`, and is sorted by
confidence descending; it contains no cart product id **provided the
degenerate-fallback id `"complementary-product"` is not itself a cart
item** (the fallback branch can return a cart item, see the
counterexample). -/
theorem recommend_upsell_output_invariants (cart : List String)
    (δ : ℕ → ℚ) (hδ : ∀ k, -(1/20) ≤ δ k ∧ δ k ≤ 1/20) :
    (recommendUpsell cart δ).length ≤ 5 ∧
      ((recommendUpsell cart δ).map (fun r => r.product_id)).Nodup ∧
      (∀ r ∈ recommendUpsell cart δ, 0 ≤ r.confidence ∧ r.confidence ≤ 1) ∧
      (recommendUpsell cart δ).Pairwise
        (fun x y => y.confidence ≤ x.confidence) ∧
      ("complementary-product" ∉ cart →
        ∀ r ∈ recommendUpsell cart δ, r.product_id ∉ cart) :=
  recommendUpsell_props cart δ hδ

/-- Witness for C4 at a concrete cart and the zero perturbation stream. -/
theorem recommend_upsell_output_invariants_witness :
    (recommendUpsell ["prod-1"] (fun _ => 0)).length ≤ 5 ∧
      ((recommendUpsell ["prod-1"] (fun _ => 0)).map
        (fun r => r.product_id)).Nodup ∧
      (∀ r ∈ recommendUpsell ["prod-1"] (fun _ => 0),
        0 ≤ r.confidence ∧ r.confidence ≤ 1) ∧
      (recommendUpsell ["prod-1"] (fun _ => 0)).Pairwise
        (fun x y => y.confidence ≤ x.confidence) ∧
      ("complementary-product" ∉ ["prod-1"] →
        ∀ r ∈ recommendUpsell ["prod-1"] (fun _ => 0),
          r.product_id ∉ ["prod-1"]) :=
  recommend_upsell_output_invariants ["prod-1"] (fun _ => 0)
    (fun _ => by norm_num)

/-- Counterexample to C4 as stated: when the cart already contains the
fallback product id and every association candidate, the degenerate
fallback returns `"complementary-product"`, which is in the cart. -/
theorem recommend_upsell_fallback_in_cart :
    recommendUpsell
        ["complementary-product", "recommended-1", "recommended-2",
          "recommended-3"] (fun _ => 0) =
        [⟨"complementary-product", 3/5, "Complementary product"⟩] ∧
      "complementary-product" ∈
        ["complementary-product", "recommended-1", "recommended-2",
          "recommended-3"] := by
  constructor
  · simp [recommendUpsell, processCart, emitAssoc, fbtGet,
      FREQUENTLY_BOUGHT_TOGETHER, defaultAssoc, List.lookup]
  · decide

/-- C10 (amended): for every cart — including carts with duplicate
entries, which violate the set-like precondition — the output product ids
are pairwise distinct, and they avoid the cart whenever the fallback id
`"complementary-product"` is not itself a cart item. -/
theorem recommend_upsell_duplicates_safe (cart : List String) (δ : ℕ → ℚ)
    (_hne : cart ≠ []) (hδ : ∀ k, -(1/20) ≤ δ k ∧ δ k ≤ 1/20) :
    ((recommendUpsell cart δ).map (fun r => r.product_id)).Nodup ∧
      ("complementary-product" ∉ cart →
        ∀ r ∈ recommendUpsell cart δ, r.product_id ∉ cart) :=
  ⟨(recommendUpsell_props cart δ hδ).2.1,
    (recommendUpsell_props cart δ hδ).2.2.2.2⟩

/-- Witness for C10 at a cart with a duplicate entry. -/
theorem recommend_upsell_duplicates_safe_witness :
    ((recommendUpsell ["prod-1", "prod-1"] (fun _ => 0)).map
        (fun r => r.product_id)).Nodup ∧
      ("complementary-product" ∉ ["prod-1", "prod-1"] →
        ∀ r ∈ recommendUpsell ["prod-1", "prod-1"] (fun _ => 0),
          r.product_id ∉ ["prod-1", "prod-1"]) :=
  recommend_upsell_duplicates_safe ["prod-1", "prod-1"] (fun _ => 0)
    (by simp) (fun _ => by norm_num)

/-- Counterexample to C10 as stated: a non-empty cart (with a duplicate)
containing the fallback id and all association candidates receives the
fallback recommendation, whose product id is in the cart. -/
theorem recommend_upsell_duplicate_cart_overlap :
    recommendUpsell
        ["complementary-product", "recommended-1", "recommended-1",
          "recommended-2", "recommended-3"] (fun _ => 0) =
        [⟨"complementary-product", 3/5, "Complementary product"⟩] ∧
      "complementary-product" ∈
        ["complementary-product", "recommended-1", "recommended-1",
          "recommended-2", "recommended-3"] := by
  constructor
  · simp [recommendUpsell, processCart, emitAssoc, fbtGet,
      FREQUENTLY_BOUGHT_TOGETHER, defaultAssoc, List.lookup]
  · decide

/-- C5: the outbound chat message sequence always has length
`1 + min(len(history), 5) + 1`, starts with the system message, ends with
the user message, and its middle is exactly the last at most five history
entries in order. -/
theorem chat_outbound_message_shape (sys user : String)
    (hist : List ChatMessage) :
    (buildMessages sys hist user).length = 1 + min hist.length 5 + 1 ∧
      (buildMessages sys hist user).head? = some ⟨"system", sys⟩ ∧
      (buildMessages sys hist user).getLast? = some ⟨"user", user⟩ ∧
      ((buildMessages sys hist user).drop 1).dropLast =
        hist.drop (hist.length - 5) := by
  have hM : (if hist.isEmpty then ([] : List ChatMessage)
      else hist.drop (hist.length - 5)) = hist.drop (hist.length - 5) := by
    by_cases h : hist.isEmpty
    · rw [if_pos h, List.isEmpty_iff.mp h]
      simp
    · rw [if_neg h]
  unfold buildMessages
  rw [hM]
  refine ⟨?_, rfl, ?_, ?_⟩
  · simp only [List.length_cons, List.length_append, List.length_drop]
    simp
    omega
  · rw [show (⟨"system", sys⟩ ::
        (hist.drop (hist.length - 5) ++ [⟨"user", user⟩]) : List ChatMessage) =
        (⟨"system", sys⟩ :: hist.drop (hist.length - 5)) ++ [⟨"user", user⟩]
      by simp]
    exact List.getLast?_concat _
  · simp

/-- C7: the empty-cart branch returns exactly the three popular
placeholders with confidences 0.8, 0.7, 0.6 (strictly decreasing) and
reason "Trending product", for every perturbation stream. -/
theorem recommend_upsell_empty_cart (δ : ℕ → ℚ) :
    recommendUpsell [] δ =
      [⟨"popular-0", 4/5, "Trending product"⟩,
       ⟨"popular-1", 7/10, "Trending product"⟩,
       ⟨"popular-2", 3/5, "Trending product"⟩] := by
  simp [recommendUpsell, popularRecs, List.range_succ]
  norm_num
  exact ⟨rfl, rfl, rfl⟩

/-- C8 (code bug): the schema layer does not constrain `role`, so a
history entry with role `"system"` — outside the documented
{user, assistant} set — is accepted and forwarded verbatim to the
collaborator instead of being rejected before the external call. -/
theorem chat_unconstrained_role_forwarded :
    buildMessages "SYS" [⟨"system", "earlier"⟩] "hello" =
      [⟨"system", "SYS"⟩, ⟨"system", "earlier"⟩, ⟨"user", "hello"⟩] := rfl

/-- C9: the health-check response is determined by whether the credential
is empty — any two credentials agreeing on emptiness produce identical
responses — and its only string component is the constant `"healthy"`. -/
theorem health_credential_noninterference (k₁ k₂ : String)
    (h : k₁ = "" ↔ k₂ = "") :
    healthCheck k₁ = healthCheck k₂ ∧ (healthCheck k₁).1 = "healthy" := by
  refine ⟨?_, rfl⟩
  unfold healthCheck
  by_cases hk : k₁ = ""
  · rw [hk, h.mp hk]
  · have hk₂ : k₂ ≠ "" := fun he => hk (h.mpr he)
    have e1 : (k₁ != "") = true := bne_iff_ne.mpr hk
    have e2 : (k₂ != "") = true := bne_iff_ne.mpr hk₂
    rw [e1, e2]

/-- Witness for C9 at two distinct non-empty credentials. -/
theorem health_credential_noninterference_witness :
    healthCheck "sk-configured" = healthCheck "other-key" ∧
      (healthCheck "sk-configured").1 = "healthy" :=
  health_credential_noninterference _ _ (by simp)

/-! ## Code-fence stripping lemmas (towards C6) -/

/-- The fuel of `deleteAllAux` is irrelevant once it dominates the input
length. -/
theorem deleteAllAux_irrel (pat : List Char) :
    ∀ (f₁ f₂ : ℕ) (l : List Char), l.length ≤ f₁ → l.length ≤ f₂ →
      deleteAllAux pat f₁ l = deleteAllAux pat f₂ l := by
  intro f₁
  induction f₁ with
  | zero =>
    intro f₂ l h₁ _
    have : l = [] := List.eq_nil_of_length_eq_zero (Nat.le_zero.mp h₁)
    subst this
    cases f₂ <;> rfl
  | succ f ih =>
    intro f₂ l h₁ h₂
    cases l with
    | nil => cases f₂ <;> rfl
    | cons c t =>
      cases f₂ with
      | zero => simp at h₂
      | succ f₂' =>
        have hlt : t.length ≤ f := by simp at h₁; omega
        have hlt₂ : t.length ≤ f₂' := by simp at h₂; omega
        have hld : (t.drop (pat.length - 1)).length ≤ t.length := by
          rw [List.length_drop]; omega
        simp only [deleteAllAux]
        by_cases hc : pat <+: (c :: t) ∧ pat ≠ []
        · rw [if_pos hc, if_pos hc]
          exact ih f₂' _ (le_trans hld hlt) (le_trans hld hlt₂)
        · rw [if_neg hc, if_neg hc]
          exact congrArg (c :: ·) (ih f₂' t hlt hlt₂)

/-- Unfolding equation of `deleteAll` on a non-empty list. -/
theorem deleteAll_cons (pat : List Char) (c : Char) (t : List Char) :
    deleteAll pat (c :: t) =
      if pat <+: (c :: t) ∧ pat ≠ [] then
        deleteAll pat (t.drop (pat.length - 1))
      else c :: deleteAll pat t := by
  unfold deleteAll
  simp only [List.length_cons, deleteAllAux]
  by_cases hc : pat <+: (c :: t) ∧ pat ≠ []
  · rw [if_pos hc, if_pos hc]
    exact deleteAllAux_irrel pat t.length _ _
      (by rw [List.length_drop]; omega) le_rfl
  · rw [if_neg hc, if_neg hc]

/-- Deleting a pattern that does not occur leaves the list unchanged. -/
theorem deleteAll_of_not_infix (pat : List Char) :
    ∀ (l : List Char), ¬ pat <:+: l → deleteAll pat l = l := by
  intro l
  induction l with
  | nil => intro _; rfl
  | cons c t ih =>
    intro h
    rw [deleteAll_cons]
    rw [if_neg (fun hc => h hc.1.isInfix)]
    exact congrArg (c :: ·) (ih (fun hi => h (List.infix_cons hi)))

/-- Deleting a pattern standing at the head of the list removes it and
resumes after it. -/
theorem deleteAll_self_append (p : Char) (ps rest : List Char) :
    deleteAll (p :: ps) (p :: (ps ++ rest)) = deleteAll (p :: ps) rest := by
  rw [deleteAll_cons]
  rw [if_pos ⟨by
    rw [List.cons_prefix_cons]
    exact ⟨rfl, List.prefix_append ps rest⟩, by simp⟩]
  congr 1
  simp [List.drop_left]

/-- Deleting the fence pattern from `l ++ fence` recovers `l` whenever the
fence does not occur inside `l` (boundary overlaps of at most two
backticks resolve to the original characters). -/
theorem deleteAll_concat_bt3 :
    ∀ (l : List Char), ¬ bt3 <:+: l → deleteAll bt3 (l ++ bt3) = l := by
  intro l
  induction l with
  | nil =>
    intro _
    show deleteAll bt3 ([] ++ bt3) = []
    decide
  | cons c t ih =>
    intro h
    have ht : ¬ bt3 <:+: t := fun hi => h (List.infix_cons hi)
    rw [List.cons_append, deleteAll_cons]
    by_cases hpre : bt3 <+: c :: (t ++ bt3)
    · rw [if_pos ⟨hpre, by decide⟩]
      rcases t with _ | ⟨d, _ | ⟨e, t'⟩⟩
      · have hc : btk = c := by
          simp [bt3, List.cons_prefix_cons] at hpre
          exact hpre
        subst hc
        decide
      · have hcd : btk = c ∧ btk = d := by
          simp [bt3, List.cons_prefix_cons] at hpre
          exact hpre
        obtain ⟨hc, hd⟩ := hcd
        subst hc
        subst hd
        decide
      · exfalso
        simp [bt3, List.cons_prefix_cons] at hpre
        obtain ⟨hc, hd, he⟩ := hpre
        subst hc
        subst hd
        subst he
        exact h (List.IsPrefix.isInfix ⟨t', by simp [bt3]⟩)
    · rw [if_neg (fun hcc => hpre hcc.1)]
      exact congrArg (c :: ·) (ih ht)

/-- If the fence does not occur in `r` it does not occur in
`r ++ "\n"`. -/
theorem not_infix_bt3_concat_nl :
    ∀ (r : List Char), ¬ bt3 <:+: r → ¬ bt3 <:+: (r ++ ['\n']) := by
  intro r
  induction r with
  | nil =>
    intro _ hi
    have := hi.length_le
    simp [bt3] at this
  | cons c t ih =>
    intro h hi
    have ht : ¬ bt3 <:+: t := fun hh => h (List.infix_cons hh)
    rcases List.infix_cons_iff.mp hi with hp | hi'
    · rcases t with _ | ⟨d, _ | ⟨e, t'⟩⟩
      · simp +decide [bt3, List.cons_prefix_cons] at hp
      · simp +decide [bt3, List.cons_prefix_cons] at hp
      · simp [bt3, List.cons_prefix_cons] at hp
        obtain ⟨hc, hd, he⟩ := hp
        subst hc
        subst hd
        subst he
        exact h (List.IsPrefix.isInfix ⟨t', by simp [bt3]⟩)
    · exact ih ht hi'

/-- If the fence does not occur in `r` it does not occur in
`"\n" ++ r ++ "\n"`. -/
theorem not_infix_bt3_sandwich (r : List Char) (h : ¬ bt3 <:+: r) :
    ¬ bt3 <:+: ('\n' :: (r ++ ['\n'])) := by
  intro hi
  rcases List.infix_cons_iff.mp hi with hp | hi'
  · simp +decide [bt3, List.cons_prefix_cons] at hp
  · exact not_infix_bt3_concat_nl r h hi'

/-- If the fence does not occur in `r`, the JSON-fence opener does not
occur in `r ++ "\n" ++ fence`. -/
theorem not_infix_pat7_tail :
    ∀ (r : List Char), ¬ bt3 <:+: r → ¬ pat7 <:+: (r ++ '\n' :: bt3) := by
  intro r
  induction r with
  | nil =>
    intro _ hi
    have := hi.length_le
    simp [pat7, bt3] at this
  | cons c t ih =>
    intro h hi
    have ht : ¬ bt3 <:+: t := fun hh => h (List.infix_cons hh)
    rcases List.infix_cons_iff.mp hi with hp | hi'
    · rcases t with _ | ⟨d, _ | ⟨e, t'⟩⟩
      · simp +decide [pat7, bt3, List.cons_prefix_cons] at hp
      · simp +decide [pat7, bt3, List.cons_prefix_cons] at hp
      · simp [pat7, List.cons_prefix_cons] at hp
        obtain ⟨hc, hd, he, -⟩ := hp
        subst hc
        subst hd
        subst he
        exact h (List.IsPrefix.isInfix ⟨t', by simp [bt3]⟩)
    · exact ih ht hi'

/-- If the fence does not occur in `r`, the JSON-fence opener does not
occur in `"\n" ++ r ++ "\n" ++ fence`. -/
theorem not_infix_pat7_sandwich (r : List Char) (h : ¬ bt3 <:+: r) :
    ¬ pat7 <:+: ('\n' :: (r ++ '\n' :: bt3)) := by
  intro hi
  rcases List.infix_cons_iff.mp hi with hp | hi'
  · simp +decide [pat7, List.cons_prefix_cons] at hp
  · exact not_infix_pat7_tail r h hi'

/-- Stripping ignores a leading stripped character. -/
theorem stripBy_cons_of_pos (p : Char → Bool) (c : Char) (l : List Char)
    (hc : p c = true) : stripBy p (c :: l) = stripBy p l := by
  unfold stripBy
  rw [List.dropWhile_cons_of_pos hc]

/-- Stripping ignores a trailing stripped character. -/
theorem stripBy_concat_of_pos (p : Char → Bool) (c : Char) (l : List Char)
    (hc : p c = true) : stripBy p (l ++ [c]) = stripBy p l := by
  unfold stripBy
  rw [List.dropWhile_append]
  by_cases he : (l.dropWhile p).isEmpty
  · rw [if_pos he]
    rw [List.isEmpty_iff.mp he]
    simp [List.dropWhile_cons, hc]
  · rw [if_neg he]
    rw [List.reverse_append]
    simp only [List.reverse_cons, List.reverse_nil, List.nil_append,
      List.singleton_append]
    rw [List.dropWhile_cons_of_pos hc]

/-- `strip` of `"\n" ++ r ++ "\n"` equals `strip r`. -/
theorem pyStrip_sandwich (r : List Char) :
    pyStrip ('\n' :: (r ++ ['\n'])) = pyStrip r := by
  unfold pyStrip
  rw [stripBy_cons_of_pos _ _ _ (by decide),
    stripBy_concat_of_pos _ _ _ (by decide)]

/-- The JSON-fence opener heads the json-wrapped reply. -/
theorem pat7_prefix_wrapJson (r : List Char) : pat7 <+: wrapFenceJson r :=
  List.prefix_append _ _

/-- The JSON-fence opener does not head the plain-wrapped reply. -/
theorem pat7_not_prefix_wrapPlain (r : List Char) :
    ¬ pat7 <+: wrapFencePlain r := by
  unfold wrapFencePlain
  simp +decide [pat7, bt3, List.cons_prefix_cons]

/-- The plain fence heads the plain-wrapped reply. -/
theorem bt3_prefix_wrapPlain (r : List Char) : bt3 <+: wrapFencePlain r :=
  List.prefix_append _ _

/-- A fence-free reply passes through `stripFences` unchanged. -/
theorem stripFences_id_of_no_fence (r : List Char) (h : ¬ bt3 <:+: r) :
    stripFences r = r := by
  have hA : ¬ pat7 <+: r := fun hp =>
    h (((show bt3 <+: pat7 by decide).trans hp).isInfix)
  have hB : ¬ bt3 <+: r := fun hp => h hp.isInfix
  unfold stripFences
  rw [if_neg hA, if_neg hB]

/-- Stripping fences from the json-wrapped reply yields the stripped
reply. -/
theorem stripFences_wrapJson (r : List Char) (h : ¬ bt3 <:+: r) :
    stripFences (wrapFenceJson r) = pyStrip r := by
  unfold stripFences
  rw [if_pos (pat7_prefix_wrapJson r)]
  unfold wrapFenceJson
  have e1 : deleteAll pat7 (pat7 ++ ('\n' :: (r ++ '\n' :: bt3))) =
      deleteAll pat7 ('\n' :: (r ++ '\n' :: bt3)) :=
    deleteAll_self_append btk [btk, btk, 'j', 's', 'o', 'n'] _
  rw [e1, deleteAll_of_not_infix pat7 _ (not_infix_pat7_sandwich r h)]
  rw [show '\n' :: (r ++ '\n' :: bt3) = ('\n' :: (r ++ ['\n'])) ++ bt3
    from by simp]
  rw [deleteAll_concat_bt3 _ (not_infix_bt3_sandwich r h)]
  exact pyStrip_sandwich r

/-- Stripping fences from the plain-wrapped reply yields the stripped
reply. -/
theorem stripFences_wrapPlain (r : List Char) (h : ¬ bt3 <:+: r) :
    stripFences (wrapFencePlain r) = pyStrip r := by
  unfold stripFences
  rw [if_neg (pat7_not_prefix_wrapPlain r), if_pos (bt3_prefix_wrapPlain r)]
  unfold wrapFencePlain
  have e1 : deleteAll bt3 (bt3 ++ ('\n' :: (r ++ '\n' :: bt3))) =
      deleteAll bt3 ('\n' :: (r ++ '\n' :: bt3)) :=
    deleteAll_self_append btk [btk, btk] _
  rw [e1]
  rw [show '\n' :: (r ++ '\n' :: bt3) = ('\n' :: (r ++ ['\n'])) ++ bt3
    from by simp]
  rw [deleteAll_concat_bt3 _ (not_infix_bt3_sandwich r h)]
  exact pyStrip_sandwich r

/-- C6 (amended): for every raw reply that contains no occurrence of the
``` fence and whose surrounding (Python-strippable) whitespace is JSON
whitespace, the invoice post-processing parses the code-fence-wrapped
reply — with either the ```json or the plain ``` opener — to exactly the
same structure as the bare reply. -/
theorem ocr_fence_wrapped_parses_equal (r : List Char)
    (h1 : ¬ bt3 <:+: r)
    (h2 : stripBy isJsonWs (pyStrip r) = stripBy isJsonWs r) :
    postProcessReply (wrapFenceJson r) = postProcessReply r ∧
      postProcessReply (wrapFencePlain r) = postProcessReply r := by
  have hload : pyJsonLoads (pyStrip r) = pyJsonLoads r := by
    unfold pyJsonLoads
    rw [h2]
  have hid : postProcessReply r = pyJsonLoads r := by
    unfold postProcessReply
    rw [stripFences_id_of_no_fence r h1]
  constructor
  · calc postProcessReply (wrapFenceJson r)
        = pyJsonLoads (stripFences (wrapFenceJson r)) := rfl
      _ = pyJsonLoads (pyStrip r) := by rw [stripFences_wrapJson r h1]
      _ = pyJsonLoads r := hload
      _ = postProcessReply r := hid.symm
  · calc postProcessReply (wrapFencePlain r)
        = pyJsonLoads (stripFences (wrapFencePlain r)) := rfl
      _ = pyJsonLoads (pyStrip r) := by rw [stripFences_wrapPlain r h1]
      _ = pyJsonLoads r := hload
      _ = postProcessReply r := hid.symm

/-- Witness for C6 on a concrete fence-free JSON reply. -/
theorem ocr_fence_wrapped_parses_equal_witness :
    postProcessReply (wrapFenceJson "[1, 2]".toList) =
        postProcessReply "[1, 2]".toList ∧
      postProcessReply (wrapFencePlain "[1, 2]".toList) =
        postProcessReply "[1, 2]".toList :=
  ocr_fence_wrapped_parses_equal _ (by decide) (by decide)

/-- Counterexample to C6 as stated: a reply containing ``` inside a JSON
string parses differently once wrapped, because `str.replace` deletes
every occurrence, not only the delimiters. -/
theorem ocr_fence_wrapped_parses_differently :
    postProcessReply
        (wrapFenceJson ('"' :: 'a' :: btk :: btk :: btk :: 'b' :: '"' :: [])) ≠
      postProcessReply ('"' :: 'a' :: btk :: btk :: btk :: 'b' :: '"' :: []) := by
  have e1 : postProcessReply
      (wrapFenceJson ('"' :: 'a' :: btk :: btk :: btk :: 'b' :: '"' :: [])) =
      some (Json.str ['a', 'b']) := rfl
  have e2 : postProcessReply
      ('"' :: 'a' :: btk :: btk :: btk :: 'b' :: '"' :: []) =
      some (Json.str ('a' :: btk :: btk :: btk :: 'b' :: [])) := rfl
  rw [e1, e2]
  intro hcon
  simp only [Option.some.injEq, Json.str.injEq] at hcon
  exact absurd hcon (by decide)

end Nexus
